import Mathlib

/-!
Verification development for the batch dispatch and supervision engine of the
transcription system (AudioDispatcher/src/Transcribe.py and the XML helpers in
WhisperXSegmentMerger/src/XMLProcessor.py, CoreAudioProcessor/src/utils/XMLProcessor.py,
AudioDispatcher/src/IscFileSearch.py).

Modelling conventions:
- Filesystem paths appear as pathlib `parts` lists (absolute, first part the root
  segment); `absolute()` is the identity because the model only manipulates
  already-absolute part lists.
- The child process is opaque: each candidate file carries a `ChildBehavior`
  describing what happened when the supervisor ran it (exit with a code plus a
  self-reported performance fragment, a FileNotFoundError when launching, or some
  other exception raised by Popen/communicate).
- Wall-clock instants are rationals; the Python float round() is modelled as
  round-half-to-even on rationals.
- Log sinks are modelled at record level: the performance log is the list of
  records appended to it, in order, not the raw byte stream.
-/

/-! ## Python string primitives -/

/-- ASCII lower-casing of one character, as Python str.lower acts on the ASCII
range (the only range the repository uses). -/
def pyCharLower (c : Char) : Char :=
  if 'A' ≤ c ∧ c ≤ 'Z' then Char.ofNat (c.toNat + 32) else c

/-- Python str.lower restricted to ASCII, which is all the repository uses. -/
def pyLower (s : String) : String := String.mk (s.toList.map pyCharLower)

/-- Index of the last occurrence of a character in a list (Python str.rfind). -/
def lastIndexOf (c : Char) (l : List Char) : Option Nat :=
  ((l.enum.filter (fun p => p.2 == c)).map Prod.fst).getLast?

/-- Model of pathlib.PurePath.suffix: the final dot-suffix of the name, empty when
the rightmost dot is at index 0 (hidden files) or the final character. Mirrors
CPython: i = name.rfind( . ); return name[i:] if 0 < i < len(name) - 1 else the
empty string. -/
def pySuffix (s : String) : String :=
  let cs := s.toList
  match lastIndexOf '.' cs with
  | none => ""
  | some i => if 0 < i ∧ i < cs.length - 1 then String.mk (cs.drop i) else ""

/-! ## Output path mapping (Transcribe.py lines 199, 212-216) -/

/-- Transcribe.py line 215: dirpath_suffix, the parts of the (absolute) directory
of the audio file beyond the first audiodir_path_len parts. The Python list
comprehension over range(audiodir_path_len, dirpath_len) is exactly List.drop. -/
def dirpathSuffix (audiodirParts dirParts : List String) : List String :=
  dirParts.drop audiodirParts.length

/-- Transcribe.py line 216: this_output_dir = output_dir joined with the
dirpath_suffix segments. -/
def thisOutputDir (outputDirParts audiodirParts dirParts : List String) : List String :=
  outputDirParts ++ dirpathSuffix audiodirParts dirParts

/-! ## Data model for one batch run -/

/-- Classified severity of one file. Python represents these as
None / the string Warn / the string Error / the string Fatal. -/
inductive Syndrome
  | success
  | warn
  | error
  | fatal
deriving DecidableEq, Repr

/-- What happened when the supervisor invoked the child process on one file. -/
inductive ChildBehavior
  | exits (code : Int) (frag : String)
  | launchFailure
  | otherException
deriving DecidableEq, Repr

structure FileSpec where
  name : String
  behavior : ChildBehavior
deriving DecidableEq, Repr

/-- One (dirpath, dirnames, filenames) triple yielded by Path(audiodir).walk(). -/
structure DirEntry where
  parts : List String
  files : List FileSpec
deriving DecidableEq, Repr

structure RunInput where
  enableLogging : Bool
  extensions : List String
  audiodirParts : List String
  outputDirParts : List String
  walk : List DirEntry
  startTime : ℚ
  endTime : ℚ
deriving DecidableEq, Repr

/-- Transcribe.py line 24. -/
def CONSECUTIVE_FAILURES_MAX : Nat := 5

/-- Modelled from the spec: src/StatusManager.py is absent from the repository
snapshot (only its callers are present). Per the spec exit-status taxonomy and
the sibling module applicationStatusManagement.py, missing_file records a usage
error (2). -/
def missingFileExit : Int := 2

/-- Modelled from the spec: src/StatusManager.py is absent; uncertain_error is
taken to record an internal operation error (4), per the spec taxonomy
(UnhandledChildException) and applicationStatusManagement.py internal_error. -/
def uncertainErrorExit : Int := 4

/-- Reasons the Python function dies with an unhandled exception. -/
inductive CrashKind
  | nameErrorLogsUnbound
  | unboundLocalStaleVars
deriving DecidableEq, Repr

/-- Mutable local state of the supervisor loop.
counter is consecutive_failure_counter (line 200), the one consulted by the
threshold check at line 289. count is consecutive_failure_count (line 247),
which is never initialized before the loop: none models the unbound local.
everRan records whether processor_end_time / stdout_text / stderr_text have been
bound by a completed Popen on some earlier iteration. -/
structure SupState where
  counter : Nat
  count : Option Int
  everRan : Bool
deriving DecidableEq, Repr

/-- Trace record for one dispatched candidate file. classified is the syndrome
set by the try/except block (lines 246, 260, 264); final is the syndrome after
the threshold escalation (lines 287-291); counterAfter is
consecutive_failure_counter after the iteration; diagWritten records whether
err_msg was written to the summary and detailed logs (lines 270-276);
mergedFrag is the performance fragment appended to the performance log at lines
301-306, when that happened; crashedHere marks an iteration that raised an
unhandled UnboundLocalError at line 266 (stale processor_end_time). -/
structure ProcEntry where
  dirParts : List String
  name : String
  behavior : ChildBehavior
  classified : Syndrome
  final : Syndrome
  exitCode : Int
  counterAfter : Nat
  diagWritten : Bool
  mergedFrag : Option String
  crashedHere : Bool
deriving DecidableEq, Repr

/-- One iteration of the inner loop of Transcribe (lines 209-308), for a
candidate that is about to be dispatched. Returns the trace entry, the state
afterwards, whether the iteration ended in break (line 295), and an unhandled
exception if the iteration crashed the run. -/
def stepCandidate (log : Bool) (st : SupState) (d : List String) (f : FileSpec) :
    ProcEntry × SupState × Bool × Option CrashKind :=
  match f.behavior with
  | .exits code frag =>
    -- line 246: None if exit_code == 0 else Warn if exit_code == 1 else Error
    let classified : Syndrome :=
      if code = 0 then .success else if code = 1 then .warn else .error
    if code ≤ 1 then
      -- line 247 binds consecutive_failure_count to 0; the else branch is not
      -- evaluated, so no UnboundLocalError even on the first iteration
      if classified = .error then
        -- only negative exit codes reach this: lines 287-291 apply
        let counter1 := st.counter + 1
        let final : Syndrome :=
          if counter1 > CONSECUTIVE_FAILURES_MAX then .fatal else .error
        (⟨d, f.name, f.behavior, classified, final, code, counter1, false, none, false⟩,
         ⟨counter1, some 0, true⟩, final = .fatal, none)
      else
        -- SUCCESS falls through to line 300; WARNING takes lines 269-281 and
        -- 298 and then also falls through to line 300: both merge the fragment
        (⟨d, f.name, f.behavior, classified, classified, code, st.counter, false,
          if log then some frag else none, false⟩,
         ⟨st.counter, some 0, true⟩, false, none)
    else
      match st.count with
      | some k =>
        -- classified = error here; lines 287-291
        let counter1 := st.counter + 1
        let final : Syndrome :=
          if counter1 > CONSECUTIVE_FAILURES_MAX then .fatal else .error
        (⟨d, f.name, f.behavior, classified, final, code, counter1, false, none, false⟩,
         ⟨counter1, some (k + 1), true⟩, final = .fatal, none)
      | none =>
        -- line 247 raises UnboundLocalError inside the try block; the generic
        -- handler at line 261 turns it into syndrome Error with err_msg set and
        -- exit_code overwritten; consecutive_failure_count stays unbound
        let counter1 := st.counter + 1
        let final : Syndrome :=
          if counter1 > CONSECUTIVE_FAILURES_MAX then .fatal else .error
        (⟨d, f.name, f.behavior, .error, final, uncertainErrorExit, counter1, true, none, false⟩,
         ⟨counter1, none, true⟩, final = .fatal, none)
  | .launchFailure =>
    -- lines 253-260: FileNotFoundError from Popen, classified Fatal at once,
    -- independent of both counters
    if st.everRan then
      (⟨d, f.name, f.behavior, .fatal, .fatal, missingFileExit, st.counter, true, none, false⟩,
       st, true, none)
    else
      -- processor_end_time is still unbound: line 266 raises UnboundLocalError
      -- outside any try block, killing the whole run before any log write
      (⟨d, f.name, f.behavior, .fatal, .fatal, missingFileExit, st.counter, false, none, true⟩,
       st, true, some .unboundLocalStaleVars)
  | .otherException =>
    -- lines 261-264: any other exception from Popen/communicate
    if st.everRan then
      let counter1 := st.counter + 1
      let final : Syndrome :=
        if counter1 > CONSECUTIVE_FAILURES_MAX then .fatal else .error
      (⟨d, f.name, f.behavior, .error, final, uncertainErrorExit, counter1, true, none, false⟩,
       ⟨counter1, st.count, true⟩, final = .fatal, none)
    else
      (⟨d, f.name, f.behavior, .error, .error, uncertainErrorExit, st.counter, false, none, true⟩,
       st, true, some .unboundLocalStaleVars)

/-- The inner loop of Transcribe over the selected candidates of one directory.
When logging is disabled, the call write_supplemental_logs(info_message) at line
223 raises NameError (summary_log_file is only bound under enable_logging at
line 179), before the candidate is dispatched. A Fatal syndrome breaks this
inner loop only. -/
def runDir (log : Bool) (st : SupState) (d : List String) :
    List FileSpec → List ProcEntry × SupState × Option CrashKind
  | [] => ([], st, none)
  | f :: fs =>
    if log then
      let r := stepCandidate log st d f
      match r.2.2.2 with
      | some k => ([r.1], r.2.1, some k)
      | none =>
        if r.2.2.1 then
          ([r.1], r.2.1, none)
        else
          let rest := runDir log r.2.1 d fs
          (r.1 :: rest.1, rest.2)
    else
      ([], st, some .nameErrorLogsUnbound)

/-- Candidate selection inside one walked directory (Transcribe.py line 209):
files whose pathlib suffix, lower-cased, is in the lower-cased extension list. -/
def candidatesOfDir (extsLower : List String) (de : DirEntry) : List FileSpec :=
  de.files.filter (fun f => decide (pyLower (pySuffix f.name) ∈ extsLower))

/-- The outer loop of Transcribe over the directories yielded by Path.walk
(line 208). Note that the break at line 295 only leaves the inner loop, so the
outer loop continues with the next directory even after a Fatal syndrome. -/
def runWalk (log : Bool) (extsLower : List String) (st : SupState) :
    List DirEntry → List (List ProcEntry) × SupState × Option CrashKind
  | [] => ([], st, none)
  | de :: rest =>
    let r := runDir log st de.parts (candidatesOfDir extsLower de)
    match r.2.2 with
    | some k => ([r.1], r.2.1, some k)
    | none =>
      let rr := runWalk log extsLower r.2.1 rest
      (r.1 :: rr.1, rr.2)

/-! ## Elapsed-time normalization (Transcribe.py lines 102-104) -/

/-- Model of the Python builtin round on a rational: round half to even. The
fractional part of q is (q.num - floor q * q.den) / q.den, so comparing it with
one half is the integer comparison of twice that remainder numerator against
the denominator. -/
def pyRound (q : ℚ) : Int :=
  let n := ⌊q⌋
  let r := q.num - n * (q.den : Int)
  if 2 * r < (q.den : Int) then n
  else if (q.den : Int) < 2 * r then n + 1
  else if n % 2 = 0 then n else n + 1

/-- Transcribe.py line 102: round(elapsed_t) // 60 (Python floor division). -/
def n_min (elapsed : ℚ) : Int := Int.fdiv (pyRound elapsed) 60

/-- Transcribe.py line 103: round(elapsed_t) % 60 (Python modulo, sign of the
divisor). -/
def n_sec (elapsed : ℚ) : Int := Int.emod (pyRound elapsed) 60

/-! ## Whole-run result -/

/-- Record-level content of the performance log: one frag record per merged
child fragment (lines 301-306), one total record for the final
total_run_time element (line 320). -/
inductive PerfEntry
  | frag (content : String)
  | total (minutes seconds : Int)
deriving DecidableEq, Repr

structure RunResult where
  dirTraces : List (List ProcEntry)
  perf : List PerfEntry
  crashed : Option CrashKind
deriving DecidableEq, Repr

/-- The performance-fragment records appended during the loop, in processing
order: exactly the mergedFrag fields of the trace. -/
def fragsOf (dss : List (List ProcEntry)) : List PerfEntry :=
  dss.flatten.filterMap (fun e => e.mergedFrag.map PerfEntry.frag)

/-- Model of the Transcribe main routine (lines 196-328) from the point where
operating parameters are resolved. Configuration lookups are taken as already
resolved into RunInput. After the loops, line 314 writes the final message
through write_supplemental_logs, which raises NameError when logging is
disabled; otherwise, when logging is enabled, lines 317-321 append the
total_run_time record built by normalized_time. -/
def TranscribeRun (inp : RunInput) : RunResult :=
  let extsLower := inp.extensions.map pyLower
  let r := runWalk inp.enableLogging extsLower ⟨0, none, false⟩ inp.walk
  match r.2.2 with
  | some k => ⟨r.1, fragsOf r.1, some k⟩
  | none =>
    if inp.enableLogging then
      ⟨r.1,
       fragsOf r.1 ++
         [PerfEntry.total (n_min (inp.endTime - inp.startTime))
                          (n_sec (inp.endTime - inp.startTime))],
       none⟩
    else
      ⟨r.1, fragsOf r.1, some .nameErrorLogsUnbound⟩

/-- The dispatched candidates of a run, in dispatch order. -/
def runTrace (inp : RunInput) : List ProcEntry :=
  (TranscribeRun inp).dirTraces.flatten

/-! ## Python value model for the XML serializer
(WhisperXSegmentMerger/src/XMLProcessor.py; CoreAudioProcessor/src/utils/XMLProcessor.py
is identical except for a two-space pretty-print indent) -/

mutual
inductive PyVal
  | vstr (s : String)
  | vint (n : Int)
  | vnone
  | vlist (items : PyList)
  | vtuple (items : PyList)
  | vdict (items : PyPairs)

inductive PyList
  | nil
  | cons (head : PyVal) (tail : PyList)

inductive PyPairs
  | nil
  | cons (key : PyVal) (val : PyVal) (tail : PyPairs)
end

/-- Convenience builder for PyList literals. -/
def pyListOf : List PyVal → PyList
  | [] => .nil
  | x :: xs => .cons x (pyListOf xs)

/-- Convenience builder for PyPairs literals. -/
def pyPairsOf : List (PyVal × PyVal) → PyPairs
  | [] => .nil
  | p :: ps => .cons p.1 p.2 (pyPairsOf ps)

def plistLen : PyList → Nat
  | .nil => 0
  | .cons _ t => plistLen t + 1

def ppairsLen : PyPairs → Nat
  | .nil => 0
  | .cons _ _ t => ppairsLen t + 1

/-- Indexing into a list or tuple, as used after a successful len check. -/
def plistGetD : PyList → Nat → PyVal
  | .nil, _ => .vnone
  | .cons h _, 0 => h
  | .cons _ t, n + 1 => plistGetD t n

/-- The list of (key, value) tuples that list(stuff.items()) produces. -/
def pairsToTuples : PyPairs → PyList
  | .nil => .nil
  | .cons k v t => .cons (.vtuple (.cons k (.cons v .nil))) (pairsToTuples t)

/-- Python str() on the scalar values the serializer reaches (str, int, None).
Container cases are never stringified on a reachable path. -/
def pyStr : PyVal → String
  | .vstr s => s
  | .vint n => toString n
  | .vnone => "None"
  | _ => ""

/-- Python str.strip( one space ): drop space characters from both ends. -/
def pyStripSpaces (s : String) : String :=
  String.mk (((s.toList.dropWhile (· == ' ')).reverse.dropWhile (· == ' ')).reverse)

/-- XMLProcessor escaping, in source order: ampersand first, then less-than.
Both needles are single characters and the ampersand replacement introduces no
less-than sign, so the two sequential str.replace calls act character-wise. -/
def pyEscape (s : String) : String :=
  String.mk (s.toList.flatMap (fun c =>
    if c = '&' then "&amp;".toList else if c = '<' then "&lt;".toList else [c]))

/-- XMLProcessor.py make_elt: a self-closing element for None, otherwise a leaf
element around str(value).strip( space ), tag names lower-cased. The value
argument is the already-stringified content (the callers pass either the escaped
scalar, None, or recursively serialized inner XML). -/
def make_elt (key : PyVal) (value : Option String) : String :=
  match value with
  | none => "<" ++ pyLower (pyStr key) ++ "/>"
  | some v =>
    "<" ++ pyLower (pyStr key) ++ ">" ++ pyStripSpaces v ++ "</" ++ pyLower (pyStr key) ++ ">"

/-- Python len(): defined for str, list, tuple, dict; raises TypeError on int
and None (returned as none here). -/
def pyLen : PyVal → Option Nat
  | .vstr s => some s.length
  | .vlist l => some (plistLen l)
  | .vtuple l => some (plistLen l)
  | .vdict p => some (ppairsLen p)
  | .vint _ => none
  | .vnone => none

/-- Python indexing as used after a successful len check: a one-character string
for str, the element for list and tuple. -/
def pyIndex : PyVal → Nat → PyVal
  | .vstr s, i => .vstr (String.mk ((s.toList.drop i).take 1))
  | .vlist l, i => plistGetD l i
  | .vtuple l, i => plistGetD l i
  | _, _ => .vnone

/-- isinstance(x, (str, int)). -/
def isStrInt : PyVal → Bool
  | .vstr _ => true
  | .vint _ => true
  | _ => false

/-- isinstance(x, (str, int, type(None))). -/
def isScalarOrNone : PyVal → Bool
  | .vstr _ => true
  | .vint _ => true
  | .vnone => true
  | _ => false

mutual
/-- Executable size measure on PyVal, used only to supply fuel. -/
def msize : PyVal → Nat
  | .vstr _ => 1
  | .vint _ => 1
  | .vnone => 1
  | .vlist l => msizeL l + 1
  | .vtuple l => msizeL l + 1
  | .vdict p => msizeP p + 2

def msizeL : PyList → Nat
  | .nil => 0
  | .cons x xs => msize x + msizeL xs + 1

def msizeP : PyPairs → Nat
  | .nil => 0
  | .cons k v t => msize k + msize v + msizeP t + 4
end

/-- Outcomes of asXMLcontent: internalError is the reported failure path
(STATUS.errmsg, logger.error, ExitStatus.internal_error(), raise InternalError);
typeError is an unreported Python TypeError from len() on an int or None;
parseFailure is an unreported minidom parse error in the pretty-print pass;
fuelOut is an artifact of the fuel parameter, never produced for the fuel the
asXML wrapper supplies. -/
inductive AsXMLErr
  | internalError
  | typeError
  | parseFailure
  | fuelOut
deriving DecidableEq, Repr

mutual
/-- XMLProcessor.py asXMLcontent. Control flow mirrors the source: a dict is
replaced by the list of its items; len() is taken (possibly raising TypeError);
a 2-sequence with a str/int head is a (key, value) pair, rendering scalar
values escaped and recursing on non-scalar values; any other list is serialized
item by item and joined; everything else is the reported error path. The fuel
argument only forces termination; it strictly exceeds the recursion depth
whenever it is at least msize of the argument. -/
def asXMLcontent : Nat → PyVal → Except AsXMLErr String
  | 0, _ => .error .fuelOut
  | fuel + 1, stuff =>
    match stuff with
    | .vdict items =>
      asXMLcontent fuel (.vlist (pairsToTuples items))
    | _ =>
      match pyLen stuff with
      | none => .error .typeError
      | some n =>
        if n = 2 ∧ isStrInt (pyIndex stuff 0) then
          if isScalarOrNone (pyIndex stuff 1) then
            .ok (make_elt (pyIndex stuff 0)
              (match pyIndex stuff 1 with
               | .vnone => none
               | v1 => some (pyEscape (pyStr v1))))
          else
            match asXMLcontent fuel (pyIndex stuff 1) with
            | .ok inner => .ok (make_elt (pyIndex stuff 0) (some inner))
            | .error e => .error e
        else
          match stuff with
          | .vlist items => asXMLjoin fuel items
          | _ => .error .internalError

/-- The join over a list in asXMLcontent, evaluated left to right; the first
exception propagates, as in the Python list comprehension. -/
def asXMLjoin : Nat → PyList → Except AsXMLErr String
  | _, .nil => .ok ""
  | 0, .cons _ _ => .error .fuelOut
  | fuel + 1, .cons x xs =>
    match asXMLcontent fuel x with
    | .error e => .error e
    | .ok s =>
      match asXMLjoin fuel xs with
      | .error e => .error e
      | .ok rest => .ok (s ++ rest)
end

/-! ## Model of xml.dom.minidom parseString and toprettyxml, restricted to the
attribute-free element/text documents that make_elt emits -/

inductive XmlNode
  | elt (tag : String) (children : List XmlNode)
  | text (s : String)

def expectClose (tag : String) (cs : List Char) : Option (List Char) :=
  let want := ('<' :: '/' :: tag.toList) ++ ['>']
  if cs.take want.length = want then some (cs.drop want.length) else none

/-- Recursive-descent reading of a sibling sequence of nodes; stops at a close
tag or at the end of input. -/
def parseNodes : Nat → List Char → Option (List XmlNode × List Char)
  | 0, _ => none
  | fuel + 1, cs =>
    match cs with
    | [] => some ([], [])
    | '<' :: '/' :: _ => some ([], cs)
    | '<' :: rest =>
      let p := rest.span (fun c => !(c == '>') && !(c == '/'))
      let tag := String.mk p.1
      match p.2 with
      | '/' :: '>' :: rest2 =>
        match parseNodes fuel rest2 with
        | some (sibs, r) => some (.elt tag [] :: sibs, r)
        | none => none
      | '>' :: rest2 =>
        match parseNodes fuel rest2 with
        | some (kids, r) =>
          match expectClose tag r with
          | some r2 =>
            match parseNodes fuel r2 with
            | some (sibs, r3) => some (.elt tag kids :: sibs, r3)
            | none => none
          | none => none
        | none => none
      | _ => none
    | _ =>
      let p := cs.span (fun c => !(c == '<'))
      match parseNodes fuel p.2 with
      | some (sibs, r) => some (.text (String.mk p.1) :: sibs, r)
      | none => none

/-- minidom.parseString: the whole input must be exactly one root element. -/
def parseDocument (s : String) : Option XmlNode :=
  match parseNodes (s.length + 2) s.toList with
  | some ([n], []) => some n
  | _ => none

/-- minidom writexml for this subset: an element without children is
self-closing; an element whose single child is a text node is written inline;
otherwise children are written on their own lines one indent level deeper. The
fuel argument only forces termination through the nested children lists. -/
def writexml : Nat → String → String → String → XmlNode → String
  | 0, _, _, _, _ => ""
  | fuel + 1, indent, addindent, newl, node =>
    match node with
    | .text s => indent ++ s ++ newl
    | .elt tag [] => indent ++ "<" ++ tag ++ "/>" ++ newl
    | .elt tag [.text s] =>
      indent ++ "<" ++ tag ++ ">" ++ s ++ "</" ++ tag ++ ">" ++ newl
    | .elt tag kids =>
      indent ++ "<" ++ tag ++ ">" ++ newl ++
      String.join (kids.map (writexml fuel (indent ++ addindent) addindent newl)) ++
      indent ++ "</" ++ tag ++ ">" ++ newl

/-- XMLProcessor.py xml_declaration constant. -/
def xml_declaration : String := "<?xml version=\"1.0\" ?>"

/-- Python str.split on a single character, keeping empty pieces. -/
def splitOnChar (c : Char) : List Char → List (List Char)
  | [] => [[]]
  | x :: xs =>
    match splitOnChar c xs with
    | [] => [[]]
    | g :: gs => if x = c then [] :: g :: gs else (x :: g) :: gs

/-- Whitespace test matching Python str.strip on the characters these logs
contain. -/
def pyIsWS (c : Char) : Bool :=
  c == ' ' || c == '\t' || c == '\n' || c == '\r'

/-- Python str.strip() with no argument: trim whitespace from both ends. -/
def pyStripWS (s : String) : String :=
  String.mk (((s.toList.dropWhile pyIsWS).reverse.dropWhile pyIsWS).reverse)

/-- Python str.join over newline. -/
def joinLines : List String → String
  | [] => ""
  | [l] => l
  | l :: ls => l ++ "\n" ++ joinLines ls

/-- XMLProcessor.py prettyPrint: minidom parseString + toprettyxml (declaration
plus newline plus the root element) with blank lines dropped and the rest
joined by newlines. Returns none when the content does not parse. -/
def prettyPrint (content : String) (indent : String) : Option String :=
  match parseDocument content with
  | none => none
  | some root =>
    let pretty := xml_declaration ++ "\n" ++ writexml (content.length + 2) "" indent "\n" root
    some (joinLines (((splitOnChar '\n' pretty.toList).map String.mk).filter
      (fun line => !(pyStripWS line).isEmpty)))

/-- WhisperXSegmentMerger/src/XMLProcessor.py asXML (lines 117-137): serialize
the content, wrap it in the outer tag, pretty-print with a four-space indent.
The CoreAudioProcessor variant differs only in using a two-space indent. -/
def asXML (outer_tag : PyVal) (content : PyVal) : Except AsXMLErr String :=
  match asXMLcontent (2 * msize content + 2) content with
  | .error e => .error e
  | .ok inner =>
    match prettyPrint (make_elt outer_tag (some inner)) "    " with
    | some s => .ok s
    | none => .error .parseFailure

/-! ## IscFileSearch (AudioDispatcher/src/IscFileSearch.py) -/

/-- Python str.endswith. -/
def pyEndsWith (s suf : String) : Bool :=
  suf.toList.isSuffixOf s.toList

mutual
inductive FsEntry
  | ffile (name : String)
  | fdir (name : String) (entries : FsList)

inductive FsList
  | nil
  | cons (e : FsEntry) (rest : FsList)
end

/-- Convenience builder for FsList literals. -/
def fsListOf : List FsEntry → FsList
  | [] => .nil
  | e :: es => .cons e (fsListOf es)

def osJoin (d n : String) : String := d ++ "/" ++ n

mutual
/-- IscFileSearch._traverse_directory_recursively, one listdir entry: descend
into directories, collect a file whose lower-cased name ends with .mp3 or
.wav. -/
def traverseEntry (dir : String) : FsEntry → List String
  | .ffile n =>
    if pyEndsWith (pyLower n) ".mp3" || pyEndsWith (pyLower n) ".wav"
    then [osJoin dir n] else []
  | .fdir n sub => traverseFsList (osJoin dir n) sub

/-- IscFileSearch._traverse_directory_recursively over a listdir sequence, in
listing order. -/
def traverseFsList (dir : String) : FsList → List String
  | .nil => []
  | .cons e rest => traverseEntry dir e ++ traverseFsList dir rest
end

/-- IscFileSearch.traverse_directory: empty (with a logged error) when the root
does not exist, otherwise the recursive collection. -/
def traverse_directory (rootExists : Bool) (rootPath : String) (rootEntries : FsList) :
    List String :=
  if rootExists then traverseFsList rootPath rootEntries else []

/-- IscFileSearch.get_files: the traversal result filtered by
file_path.lower().endswith(tuple(file_exts)). -/
def get_files (rootExists : Bool) (rootPath : String) (rootEntries : FsList)
    (file_exts : List String) : List String :=
  (traverse_directory rootExists rootPath rootEntries).filter
    (fun p => file_exts.any (fun ext => pyEndsWith (pyLower p) ext))

/-! ## File-selection summary used by the selection claims -/

/-- All (dirpath parts, filename) pairs occurring in a walk. -/
def allWalkFiles (walk : List DirEntry) : List (List String × String) :=
  walk.flatMap (fun de => de.files.map (fun f => (de.parts, f.name)))

/-- The (dirpath parts, filename) pairs the dispatcher loop selects: extension
list lower-cased once (line 137), file suffix lower-cased and matched (line
209), in walk order. -/
def selectedCandidates (walk : List DirEntry) (extensions : List String) :
    List (List String × String) :=
  walk.flatMap (fun de =>
    (candidatesOfDir (extensions.map pyLower) de).map (fun f => (de.parts, f.name)))

/-! ## Helper lemmas about the supervisor loop -/

/-- Per-iteration facts used by several claims: the classification mapping for
a completed child, the immediate Fatal classification of a launch failure with
its diagnostics, and the exact condition under which a performance fragment is
merged. -/
def EntryOK (log : Bool) (e : ProcEntry) : Prop :=
  (∀ code frag, e.behavior = .exits code frag →
    ((e.classified = .success ↔ code = 0) ∧
     (e.classified = .warn ↔ code = 1) ∧
     (2 ≤ code → e.classified = .error))) ∧
  (e.behavior = .launchFailure →
    e.classified = .fatal ∧ e.final = .fatal ∧
    (e.crashedHere = false → e.diagWritten = true)) ∧
  (e.mergedFrag.isSome = true ↔ (log = true ∧ (e.final = .success ∨ e.final = .warn)))

lemma step_behavior (log : Bool) (st : SupState) (d : List String) (f : FileSpec) :
    (stepCandidate log st d f).1.behavior = f.behavior := by
  simp only [stepCandidate]
  cases hb : f.behavior with
  | exits code frag =>
    cases hc : st.count <;> simp only [hc] <;> split_ifs <;> rfl
  | launchFailure => by_cases hr : st.everRan <;> simp [hr]
  | otherException => by_cases hr : st.everRan <;> simp [hr]

lemma step_classified (log : Bool) (st : SupState) (d : List String) (f : FileSpec)
    (code : Int) (frag : String) (hb : f.behavior = .exits code frag) :
    (stepCandidate log st d f).1.classified =
      (if code = 0 then Syndrome.success else if code = 1 then Syndrome.warn
       else Syndrome.error) := by
  simp only [stepCandidate, hb]
  cases hc : st.count <;> simp only [hc] <;> split_ifs <;> first | rfl | omega

lemma step_launch (log : Bool) (st : SupState) (d : List String) (f : FileSpec)
    (hb : f.behavior = .launchFailure) :
    (stepCandidate log st d f).1.classified = .fatal ∧
    (stepCandidate log st d f).1.final = .fatal ∧
    ((stepCandidate log st d f).1.crashedHere = false →
      (stepCandidate log st d f).1.diagWritten = true) := by
  simp only [stepCandidate, hb]
  by_cases hr : st.everRan <;> simp [hr]

lemma step_merged (log : Bool) (st : SupState) (d : List String) (f : FileSpec) :
    ((stepCandidate log st d f).1.mergedFrag.isSome = true ↔
      (log = true ∧ ((stepCandidate log st d f).1.final = .success ∨
                     (stepCandidate log st d f).1.final = .warn))) := by
  simp only [stepCandidate]
  cases hb : f.behavior with
  | exits code frag =>
    cases hc : st.count <;> simp only [hc] <;> split_ifs <;> simp_all
  | launchFailure => by_cases hr : st.everRan <;> simp [hr]
  | otherException =>
    by_cases hr : st.everRan <;> simp only [hr, if_true, if_false] <;> split_ifs <;> simp
lemma step_not_fatal_of_not_break (log : Bool) (st : SupState) (d : List String)
    (f : FileSpec) (h : (stepCandidate log st d f).2.2.1 = false) :
    (stepCandidate log st d f).1.final ≠ Syndrome.fatal := by
  simp only [stepCandidate] at h ⊢
  cases hb : f.behavior with
  | exits code frag =>
    simp only [hb] at h ⊢
    cases hc : st.count <;> simp only [hc] at h ⊢ <;> split_ifs at h ⊢ <;> simp_all
  | launchFailure =>
    simp only [hb] at h ⊢
    by_cases hr : st.everRan <;> simp [hr] at h
  | otherException =>
    simp only [hb] at h ⊢
    by_cases hr : st.everRan <;> simp only [hr, if_true, if_false] at h ⊢ <;>
      split_ifs at h ⊢ <;> simp_all

lemma runDir_entries {P : ProcEntry → Prop} (log : Bool) (d : List String)
    (hstep : ∀ st f, P (stepCandidate log st d f).1) :
    ∀ (fs : List FileSpec) (st : SupState), ∀ e ∈ (runDir log st d fs).1, P e := by
  intro fs
  induction fs with
  | nil => intro st e he; simp [runDir] at he
  | cons f fs ih =>
    intro st e he
    by_cases hl : log = true
    · subst hl
      simp only [runDir, if_true] at he
      rcases hcr : (stepCandidate true st d f).2.2.2 with _ | k <;> simp only [hcr] at he
      · by_cases hbrk : (stepCandidate true st d f).2.2.1 = true
        · simp only [hbrk, if_true, List.mem_singleton] at he
          subst he; exact hstep st f
        · simp only [Bool.not_eq_true] at hbrk
          simp only [hbrk, Bool.false_eq_true, if_false, List.mem_cons] at he
          rcases he with he | he
          · subst he; exact hstep st f
          · exact ih _ e he
      · simp only [List.mem_singleton] at he
        subst he; exact hstep st f
    · simp only [Bool.not_eq_true] at hl
      simp [runDir, hl] at he

lemma runDir_dropLast (log : Bool) (d : List String) :
    ∀ (fs : List FileSpec) (st : SupState), ∀ e ∈ (runDir log st d fs).1.dropLast,
      e.final ≠ Syndrome.fatal := by
  intro fs
  induction fs with
  | nil => intro st e he; simp [runDir] at he
  | cons f fs ih =>
    intro st e he
    by_cases hl : log = true
    · subst hl
      simp only [runDir, if_true] at he
      rcases hcr : (stepCandidate true st d f).2.2.2 with _ | k <;> simp only [hcr] at he
      · by_cases hbrk : (stepCandidate true st d f).2.2.1 = true
        · simp only [hbrk, if_true, List.dropLast_single] at he
          simp at he
        · simp only [Bool.not_eq_true] at hbrk
          simp only [hbrk, Bool.false_eq_true, if_false] at he
          rcases hrest : (runDir true (stepCandidate true st d f).2.1 d fs).1 with _ | ⟨a, l⟩
          · rw [hrest] at he; simp at he
          · rw [hrest] at he
            rw [List.dropLast_cons₂] at he
            rcases List.mem_cons.mp he with he1 | he2
            · subst he1; exact step_not_fatal_of_not_break true st d f hbrk
            · have := ih (stepCandidate true st d f).2.1 e
              rw [hrest] at this
              exact this he2
      · simp at he
    · simp only [Bool.not_eq_true] at hl
      simp [runDir, hl] at he
lemma runWalk_dirTraces_shape (log : Bool) (el : List String) :
    ∀ (walk : List DirEntry) (st : SupState),
      ∀ dt ∈ (runWalk log el st walk).1,
        ∃ st0 de, de ∈ walk ∧ dt = (runDir log st0 de.parts (candidatesOfDir el de)).1 := by
  intro walk
  induction walk with
  | nil => intro st dt hdt; simp [runWalk] at hdt
  | cons de rest ih =>
    intro st dt hdt
    simp only [runWalk] at hdt
    rcases hcr : (runDir log st de.parts (candidatesOfDir el de)).2.2 with _ | k <;>
        simp only [hcr, List.mem_singleton, List.mem_cons] at hdt
    · rcases hdt with hdt | hdt
      · exact ⟨st, de, List.mem_cons_self de rest, hdt⟩
      · rcases ih _ dt hdt with ⟨st0, de0, hmem, hdt0⟩
        exact ⟨st0, de0, List.mem_cons_of_mem de hmem, hdt0⟩
    · rcases hdt with hdt | hdt
      · exact ⟨st, de, List.mem_cons_self de rest, hdt⟩
      · simp at hdt

lemma TranscribeRun_dirTraces (inp : RunInput) :
    (TranscribeRun inp).dirTraces =
      (runWalk inp.enableLogging (inp.extensions.map pyLower) ⟨0, none, false⟩ inp.walk).1 := by
  simp only [TranscribeRun]
  rcases hcr : (runWalk inp.enableLogging (inp.extensions.map pyLower) ⟨0, none, false⟩
      inp.walk).2.2 with _ | k <;> simp only [hcr]
  all_goals first
    | rfl
    | (split <;> rfl)

lemma runTrace_entries {P : ProcEntry → Prop} (inp : RunInput)
    (hstep : ∀ st d f, P (stepCandidate inp.enableLogging st d f).1) :
    ∀ e ∈ runTrace inp, P e := by
  intro e he
  rw [runTrace, TranscribeRun_dirTraces] at he
  rcases List.mem_flatten.mp he with ⟨dt, hdt, hedt⟩
  rcases runWalk_dirTraces_shape inp.enableLogging (inp.extensions.map pyLower) inp.walk
      ⟨0, none, false⟩ dt hdt with ⟨st0, de, _, hshape⟩
  subst hshape
  exact runDir_entries inp.enableLogging de.parts (fun st f => hstep st de.parts f) _ st0 e hedt

lemma runDir_noLog (d : List String) (st : SupState) :
    ∀ fs : List FileSpec,
      (runDir false st d fs).1 = [] ∧
      ((runDir false st d fs).2.2 = none ∨
        (runDir false st d fs).2.2 = some CrashKind.nameErrorLogsUnbound) := by
  intro fs
  cases fs with
  | nil => simp [runDir]
  | cons f fs => simp [runDir]

lemma runWalk_noLog (el : List String) :
    ∀ (walk : List DirEntry) (st : SupState),
      (runWalk false el st walk).1.flatten = [] ∧
      ((runWalk false el st walk).2.2 = none ∨
        (runWalk false el st walk).2.2 = some CrashKind.nameErrorLogsUnbound) := by
  intro walk
  induction walk with
  | nil => intro st; simp [runWalk]
  | cons de rest ih =>
    intro st
    simp only [runWalk]
    rcases runDir_noLog de.parts st (candidatesOfDir el de) with ⟨h1, h2⟩
    rcases hcr : (runDir false st de.parts (candidatesOfDir el de)).2.2 with _ | k
    · simp only [hcr]
      rcases ih (runDir false st de.parts (candidatesOfDir el de)).2.1 with ⟨ih1, ih2⟩
      constructor
      · simp [h1, ih1]
      · exact ih2
    · simp only [hcr]
      constructor
      · simp [h1]
      · rw [hcr] at h2
        rcases h2 with h2 | h2
        · simp at h2
        · simp only [Option.some.injEq] at h2
          subst h2
          right; rfl
/-! ## Claim theorems -/

/-- Failing input for C1: one directory, candidate exit codes 0, 2, 0, 2. -/
def c1Input : RunInput :=
  ⟨true, [".wav"], ["/", "audio"], ["/", "out"],
   [⟨["/", "audio"],
     [⟨"f1.wav", .exits 0 "P1"⟩, ⟨"f2.wav", .exits 2 "P2"⟩,
      ⟨"f3.wav", .exits 0 "P3"⟩, ⟨"f4.wav", .exits 2 "P4"⟩]⟩], 0, 7⟩

/-- C1: the claim says exit codes 0 and 1 reset the counter that the threshold
check consults, and a subsequent error then counts from 1. In the code the
reset at line 247 lands in the dead variable consecutive_failure_count, while
the threshold check at line 289 reads consecutive_failure_counter, which is
never reset: on exit codes 0, 2, 0, 2 that counter reads 0, 1, 1, 2, where the
claim requires 0, 1, 0, 1. -/
theorem c1_counter_not_reset :
    (runTrace c1Input).map (fun e => (e.exitCode, e.counterAfter)) =
      [(0, 0), (2, 1), (0, 1), (2, 2)] := by rfl

/-- Failing input for C2: a fatal launch failure in the first directory,
followed by a second directory holding another candidate. -/
def c2Input : RunInput :=
  ⟨true, [".wav"], ["/", "audio"], ["/", "out"],
   [⟨["/", "audio"], [⟨"a1.wav", .exits 0 "R1"⟩, ⟨"a2.wav", .launchFailure⟩]⟩,
    ⟨["/", "audio", "sub"], [⟨"a3.wav", .exits 0 "R3"⟩]⟩], 0, 9⟩

/-- C2: the claim says a FATAL outcome stops the traversal, so that no later
candidate - including candidates of directories not yet visited - is
dispatched. The break at line 295 leaves only the inner per-directory loop:
after the fatal launch failure on a2.wav, the walk continues and a3.wav in the
next directory is still dispatched to the child. -/
theorem c2_fatal_not_terminal :
    (runTrace c2Input).map (fun e => (e.name, e.final)) =
      [("a1.wav", .success), ("a2.wav", .fatal), ("a3.wav", .success)] := by rfl

/-- Input for C3: eight candidates in one directory with child exit codes
0, 1, 2, 2, 2, 2, 2, 2 and the fixed threshold 5. -/
def c3Input : RunInput :=
  ⟨true, [".wav"], ["/", "audio"], ["/", "out"],
   [⟨["/", "audio"],
     [⟨"t1.wav", .exits 0 "T1"⟩, ⟨"t2.wav", .exits 1 "T2"⟩,
      ⟨"t3.wav", .exits 2 "T3"⟩, ⟨"t4.wav", .exits 2 "T4"⟩,
      ⟨"t5.wav", .exits 2 "T5"⟩, ⟨"t6.wav", .exits 2 "T6"⟩,
      ⟨"t7.wav", .exits 2 "T7"⟩, ⟨"t8.wav", .exits 2 "T8"⟩]⟩], 0, 11⟩

/-- C3 counterexample: on exit codes 0, 1, 2, 2, 2, 2, 2, 2 the batch
processes all 8 candidates - its trace has length 8, not the 6 the claim
states - and ends fatally: the counter reaches the threshold only at the sixth
error, which is the eighth candidate. -/
theorem c3_counterexample :
    (runTrace c3Input).length = 8 ∧
    (runTrace c3Input).getLast?.map ProcEntry.final = some Syndrome.fatal :=
  ⟨rfl, rfl⟩

/-- C3 as amended: with exit codes 0, 1, 2, 2, 2, 2, 2, 2 and threshold 5, the
sixth consecutive error - the eighth candidate - is escalated from ERROR to
FATAL (counter 6 exceeds 5), and the batch stops after exactly 8 of the 8
candidates were processed. -/
theorem c3_amended_trace :
    (runTrace c3Input).map (fun e => (e.classified, e.final, e.counterAfter)) =
      [(.success, .success, 0), (.warn, .warn, 0), (.error, .error, 1),
       (.error, .error, 2), (.error, .error, 3), (.error, .error, 4),
       (.error, .error, 5), (.error, .fatal, 6)] := by rfl

/-- C7: the mapped output directory is the output root joined with exactly the
path segments of the file directory beyond the segment count of the input
root; with input root /a/b, a file in /a/b/c/d and output root /x this gives
/x/c/d, and a file directly in the input root maps to the output root. -/
theorem c7_output_path_mapping :
    (∀ outputRoot inputRoot fileDir : List String,
       thisOutputDir outputRoot inputRoot fileDir =
         outputRoot ++ fileDir.drop inputRoot.length)
    ∧ thisOutputDir ["/", "x"] ["/", "a", "b"] ["/", "a", "b", "c", "d"] =
        ["/", "x", "c", "d"]
    ∧ thisOutputDir ["/", "x"] ["/", "a", "b"] ["/", "a", "b"] = ["/", "x"] :=
  ⟨fun _ _ _ => rfl, rfl, rfl⟩

/-- C10: when the enable-logging value is falsy and a candidate exists, the
first call of write_supplemental_logs (line 223) raises NameError, because
summary_log_file and detailed_log_file are bound only under enable_logging
(lines 179-185); the run dies before any candidate is dispatched. -/
theorem c10_no_dispatch_when_logging_disabled (inp : RunInput)
    (hlog : inp.enableLogging = false)
    (_hcand : ∃ de ∈ inp.walk, candidatesOfDir (inp.extensions.map pyLower) de ≠ []) :
    (TranscribeRun inp).crashed = some CrashKind.nameErrorLogsUnbound ∧
      runTrace inp = [] := by
  rcases runWalk_noLog (inp.extensions.map pyLower) inp.walk ⟨0, none, false⟩ with ⟨h1, h2⟩
  constructor
  · simp only [TranscribeRun, hlog]
    rcases hcr : (runWalk false (inp.extensions.map pyLower) ⟨0, none, false⟩
        inp.walk).2.2 with _ | k
    · simp only [hcr, Bool.false_eq_true, if_false]
    · simp only [hcr]
      rw [hcr] at h2
      rcases h2 with h2 | h2
      · simp at h2
      · simp only [Option.some.injEq] at h2
        subst h2; rfl
  · rw [runTrace, TranscribeRun_dirTraces, hlog]
    exact h1

/-- Witness input for C10: logging disabled, one matching candidate. -/
def c10Input : RunInput :=
  ⟨false, [".wav"], ["/", "audio"], ["/", "out"],
   [⟨["/", "audio"], [⟨"x.wav", .exits 0 "F"⟩]⟩], 0, 5⟩

theorem c10_witness :
    c10Input.enableLogging = false ∧
    (∃ de ∈ c10Input.walk, candidatesOfDir (c10Input.extensions.map pyLower) de ≠ []) ∧
    ((TranscribeRun c10Input).crashed = some CrashKind.nameErrorLogsUnbound ∧
      runTrace c10Input = []) :=
  ⟨rfl, by decide, c10_no_dispatch_when_logging_disabled c10Input rfl (by decide)⟩
/-- Input for C4: a launch failure after one successful candidate, with a
later directory still holding a candidate. -/
def c4Input : RunInput :=
  ⟨true, [".wav"], ["/", "w1"], ["/", "out"],
   [⟨["/", "w1"], [⟨"g1.wav", .exits 0 "Q1"⟩, ⟨"g2.wav", .launchFailure⟩]⟩,
    ⟨["/", "w1", "deep"], [⟨"g3.wav", .exits 1 "Q3"⟩]⟩], 0, 4⟩

/-- C4 counterexample: the claim says a failure to launch aborts the batch.
After the fatal launch failure on g2.wav, the candidate g3.wav of the next
walked directory is still dispatched, because the break at line 295 leaves
only the inner loop. -/
theorem c4_counterexample :
    (runTrace c4Input).map (fun e => (e.name, e.behavior, e.final)) =
      [("g1.wav", .exits 0 "Q1", .success), ("g2.wav", .launchFailure, .fatal),
       ("g3.wav", .exits 1 "Q3", .warn)] := by rfl

/-- C4 as amended: for every run, a completed child is classified SUCCESS
exactly on exit code 0, WARNING exactly on exit code 1 and ERROR on every exit
code at least 2; a launch failure is classified FATAL immediately, independent
of the failure counter, with diagnostics written to the logs whenever the
iteration itself does not die of the stale-variable UnboundLocalError; and a
FATAL outcome ends the dispatching of the current directory only - every entry
of a per-directory trace except possibly the last is non-fatal. -/
theorem c4_amended (inp : RunInput) :
    (∀ e ∈ runTrace inp,
      (∀ code frag, e.behavior = ChildBehavior.exits code frag →
        ((e.classified = Syndrome.success ↔ code = 0) ∧
         (e.classified = Syndrome.warn ↔ code = 1) ∧
         (2 ≤ code → e.classified = Syndrome.error))) ∧
      (e.behavior = ChildBehavior.launchFailure →
        e.classified = Syndrome.fatal ∧ e.final = Syndrome.fatal ∧
        (e.crashedHere = false → e.diagWritten = true))) ∧
    (∀ dt ∈ (TranscribeRun inp).dirTraces, ∀ e ∈ dt.dropLast,
      e.final ≠ Syndrome.fatal) := by
  constructor
  · refine runTrace_entries inp ?_
    intro st d f
    constructor
    · intro code frag hbe
      rw [step_behavior] at hbe
      have hcl := step_classified inp.enableLogging st d f code frag hbe
      refine ⟨?_, ?_, ?_⟩ <;> rw [hcl] <;> split_ifs <;> simp_all
    · intro hbe
      rw [step_behavior] at hbe
      exact step_launch inp.enableLogging st d f hbe
  · intro dt hdt e he
    rw [TranscribeRun_dirTraces] at hdt
    rcases runWalk_dirTraces_shape inp.enableLogging (inp.extensions.map pyLower)
        inp.walk ⟨0, none, false⟩ dt hdt with ⟨st0, de, _, rfl⟩
    exact runDir_dropLast inp.enableLogging de.parts _ st0 e he

/-- The trace entry of the fatal launch failure in c4Input. -/
def c4Entry : ProcEntry :=
  ⟨["/", "w1"], "g2.wav", .launchFailure, .fatal, .fatal, missingFileExit, 0,
   true, none, false⟩

theorem c4_amended_witness :
    c4Entry.classified = Syndrome.fatal ∧ c4Entry.final = Syndrome.fatal ∧
      (c4Entry.crashedHere = false → c4Entry.diagWritten = true) :=
  ((c4_amended c4Input).1 c4Entry (by decide)).2 (by decide)
lemma length_filterMap_isSome {α β : Type} (f : α → Option β) :
    ∀ l : List α, (l.filterMap f).length = l.countP (fun a => (f a).isSome) := by
  intro l
  induction l with
  | nil => rfl
  | cons a l ih => cases h : f a <;> simp [List.filterMap_cons, h, List.countP_cons, ih]

lemma countP_congr_here {α : Type} (p q : α → Bool) :
    ∀ l : List α, (∀ a ∈ l, p a = q a) → l.countP p = l.countP q := by
  intro l
  induction l with
  | nil => intro _; rfl
  | cons a l ih =>
    intro h
    simp only [List.countP_cons, h a (List.mem_cons_self a l),
      ih (fun b hb => h b (List.mem_cons_of_mem a hb))]

lemma pyRound_nonneg (q : ℚ) (h : 0 ≤ q) : 0 ≤ pyRound q := by
  have hf : (0 : Int) ≤ ⌊q⌋ := Int.le_floor.mpr (by exact_mod_cast h)
  simp only [pyRound]
  split_ifs <;> omega

lemma n_min_nonneg (q : ℚ) (h : 0 ≤ q) : 0 ≤ n_min q := by
  unfold n_min
  exact Int.fdiv_nonneg (pyRound_nonneg q h) (by norm_num)

lemma n_sec_nonneg (q : ℚ) : 0 ≤ n_sec q :=
  Int.emod_nonneg (pyRound q) (by norm_num)

lemma n_sec_lt (q : ℚ) : n_sec q < 60 :=
  Int.emod_lt_of_pos (pyRound q) (by norm_num)
/-- Input for C5 counterexample: logging on, a single candidate whose child
exits with code 1 (WARNING). -/
def c5Input : RunInput :=
  ⟨true, [".wav"], ["/", "audio"], ["/", "out"],
   [⟨["/", "audio"], [⟨"h1.wav", .exits 1 "W1"⟩]⟩], 0, 3⟩

/-- C5 counterexample: zero files are processed successfully, yet the
performance log holds one per-file record, because the merge at lines 301-306
also runs for a WARNING outcome; so the log does not hold exactly N per-file
records for N successfully processed files. -/
theorem c5_counterexample :
    ((TranscribeRun c5Input).perf.countP (fun e => e matches PerfEntry.frag _)) = 1 ∧
    ((runTrace c5Input).countP (fun e => e.final == Syndrome.success)) = 0 :=
  ⟨rfl, rfl⟩

/-- C5 as amended: for every run with logging enabled that terminates without
an unhandled exception and whose end time is at least its start time, the
performance log is a list of per-file fragment records - exactly one per file
whose outcome is SUCCESS or WARNING - followed by exactly one total_run_time
record whose minutes and seconds are non-negative with seconds below 60. -/
theorem c5_amended (inp : RunInput)
    (hlog : inp.enableLogging = true)
    (hok : (TranscribeRun inp).crashed = none)
    (ht : inp.startTime ≤ inp.endTime) :
    ∃ m s : Int,
      (TranscribeRun inp).perf =
        (TranscribeRun inp).perf.dropLast ++ [PerfEntry.total m s] ∧
      0 ≤ m ∧ 0 ≤ s ∧ s < 60 ∧
      (∀ r ∈ (TranscribeRun inp).perf.dropLast, ∃ c, r = PerfEntry.frag c) ∧
      ((TranscribeRun inp).perf.dropLast).length =
        (runTrace inp).countP
          (fun e => e.final == Syndrome.success || e.final == Syndrome.warn) := by
  rcases hcr : (runWalk true (inp.extensions.map pyLower) ⟨0, none, false⟩
      inp.walk).2.2 with _ | k
  case some =>
    exfalso
    simp [TranscribeRun, hlog, hcr] at hok
  case none =>
    have hperf : (TranscribeRun inp).perf =
        fragsOf (runWalk true (inp.extensions.map pyLower) ⟨0, none, false⟩ inp.walk).1 ++
          [PerfEntry.total (n_min (inp.endTime - inp.startTime))
            (n_sec (inp.endTime - inp.startTime))] := by
      simp only [TranscribeRun, hlog, hcr, if_true]
    have htr : runTrace inp =
        (runWalk true (inp.extensions.map pyLower) ⟨0, none, false⟩ inp.walk).1.flatten := by
      rw [runTrace, TranscribeRun_dirTraces, hlog]
    have helapsed : (0 : ℚ) ≤ inp.endTime - inp.startTime := by linarith
    refine ⟨n_min (inp.endTime - inp.startTime), n_sec (inp.endTime - inp.startTime),
      ?_, n_min_nonneg _ helapsed, n_sec_nonneg _, n_sec_lt _, ?_, ?_⟩
    · rw [hperf, List.dropLast_concat]
    · intro r hr
      rw [hperf, List.dropLast_concat] at hr
      rcases List.mem_filterMap.mp hr with ⟨e, _, hfe⟩
      cases hmf : e.mergedFrag with
      | none => rw [hmf] at hfe; simp at hfe
      | some c =>
        rw [hmf] at hfe
        exact ⟨c, by simpa using hfe.symm⟩
    · have hpt : ∀ e ∈ (runWalk true (inp.extensions.map pyLower) ⟨0, none, false⟩
          inp.walk).1.flatten,
          ((fun e : ProcEntry => (e.mergedFrag.map PerfEntry.frag).isSome) e) =
          ((fun e : ProcEntry =>
            e.final == Syndrome.success || e.final == Syndrome.warn) e) := by
        intro e he
        have hm := @runTrace_entries
          (fun e => e.mergedFrag.isSome = true ↔
            (inp.enableLogging = true ∧
              (e.final = Syndrome.success ∨ e.final = Syndrome.warn)))
          inp (fun st d f => step_merged inp.enableLogging st d f) e
          (by rw [htr]; exact he)
        rw [hlog] at hm
        simp only [true_and] at hm
        cases hmf : e.mergedFrag with
        | none =>
          have hnf : ¬ (e.final = Syndrome.success ∨ e.final = Syndrome.warn) := by
            intro hfin
            have hx := hm.mpr hfin
            rw [hmf] at hx
            simp at hx
          push_neg at hnf
          simp [hmf, hnf.1, hnf.2]
        | some c =>
          have hx : e.mergedFrag.isSome = true := by rw [hmf]; rfl
          rcases hm.mp hx with hfin | hfin <;> simp [hmf, hfin]
      rw [hperf, List.dropLast_concat, htr]
      show ((runWalk true (inp.extensions.map pyLower) ⟨0, none, false⟩
          inp.walk).1.flatten.filterMap
            (fun e => e.mergedFrag.map PerfEntry.frag)).length = _
      rw [length_filterMap_isSome]
      exact countP_congr_here _ _ _ hpt
/-- Witness input for C5: logging on, one SUCCESS and one WARNING candidate. -/
def c5wInput : RunInput :=
  ⟨true, [".wav"], ["/", "audio"], ["/", "out"],
   [⟨["/", "audio"], [⟨"k1.wav", .exits 0 "G1"⟩, ⟨"k2.wav", .exits 1 "G2"⟩]⟩], 0, 90⟩

theorem c5_amended_witness :
    c5wInput.enableLogging = true ∧ (TranscribeRun c5wInput).crashed = none ∧
    c5wInput.startTime ≤ c5wInput.endTime ∧
    (∃ m s : Int,
      (TranscribeRun c5wInput).perf =
        (TranscribeRun c5wInput).perf.dropLast ++ [PerfEntry.total m s] ∧
      0 ≤ m ∧ 0 ≤ s ∧ s < 60 ∧
      (∀ r ∈ (TranscribeRun c5wInput).perf.dropLast, ∃ c, r = PerfEntry.frag c) ∧
      ((TranscribeRun c5wInput).perf.dropLast).length =
        (runTrace c5wInput).countP
          (fun e => e.final == Syndrome.success || e.final == Syndrome.warn)) :=
  ⟨rfl, rfl, by decide, c5_amended c5wInput rfl rfl (by decide)⟩
/-- C6: the dispatcher loop selects, at every nesting depth of the walk,
exactly the files whose pathlib suffix matches one of the configured
extensions case-insensitively, and no others; in particular a .WAV file
matches a configured .wav extension. -/
theorem c6_file_selector :
    (∀ (walk : List DirEntry) (exts : List String) (d : List String) (n : String),
      ((d, n) ∈ selectedCandidates walk exts ↔
        ((d, n) ∈ allWalkFiles walk ∧
          ∃ ext ∈ exts, pyLower (pySuffix n) = pyLower ext)))
    ∧ pyLower (pySuffix "Interview.WAV") = pyLower ".wav" := by
  constructor
  · intro walk exts d n
    constructor
    · intro h
      rcases List.mem_flatMap.mp h with ⟨de, hde, hmem⟩
      rcases List.mem_map.mp hmem with ⟨f, hf, hpair⟩
      rcases List.mem_filter.mp hf with ⟨hfile, hmatch⟩
      have hmatch2 := of_decide_eq_true hmatch
      have hpair2 := hpair
      rw [Prod.mk.injEq] at hpair2
      rcases List.mem_map.mp hmatch2 with ⟨ext, hext, heq⟩
      refine ⟨List.mem_flatMap.mpr ⟨de, hde, List.mem_map.mpr ⟨f, hfile, hpair⟩⟩,
        ext, hext, ?_⟩
      rw [← hpair2.2]
      exact heq.symm
    · rintro ⟨hall, ext, hext, heq⟩
      rcases List.mem_flatMap.mp hall with ⟨de, hde, hmem⟩
      rcases List.mem_map.mp hmem with ⟨f, hfile, hpair⟩
      have hpair2 := hpair
      rw [Prod.mk.injEq] at hpair2
      refine List.mem_flatMap.mpr ⟨de, hde, List.mem_map.mpr ⟨f, ?_, hpair⟩⟩
      refine List.mem_filter.mpr ⟨hfile, decide_eq_true ?_⟩
      refine List.mem_map.mpr ⟨ext, hext, ?_⟩
      rw [← hpair2.2] at heq
      exact heq.symm
  · rfl

/-- IscFileSearch.get_files pre-restricts the traversal to names ending in
.mp3 or .wav, so a configured extension outside that pair selects nothing:
recorded here because the spec File Selector contract is implemented by the
dispatcher loop, while the unused IscFileSearch helper does not satisfy it. -/
theorem get_files_misses_flac :
    get_files true "/root" (fsListOf [.ffile "song.flac"]) [".flac"] = [] ∧
    pyEndsWith (pyLower "song.flac") ".flac" = true :=
  ⟨rfl, rfl⟩
/-- C8: asXML maps the dict with key a bound to 1 and key b bound to None to
the pretty-printed document with a leaf element a holding 1 and a
self-closing element b; and in general a (key, value) pair with a str or int
key and a scalar or None value renders as make_elt of the lower-cased key
around the escaped scalar, self-closing for None. -/
theorem c8_asXML_roundtrip :
    asXML (.vstr "root") (.vdict (pyPairsOf [(.vstr "a", .vint 1), (.vstr "b", .vnone)])) =
      .ok "<?xml version=\"1.0\" ?>\n<root>\n    <a>1</a>\n    <b/>\n</root>"
    ∧ (∀ (n : Nat) (k v : PyVal), isStrInt k = true → isScalarOrNone v = true →
        asXMLcontent (n + 1) (.vtuple (pyListOf [k, v])) =
          .ok (make_elt k
            (match v with
             | .vnone => none
             | _ => some (pyEscape (pyStr v))))) := by
  constructor
  · rfl
  · intro n k v hk hv
    cases v <;> cases k <;>
      simp_all [asXMLcontent, pyListOf, pyLen, plistLen, pyIndex, plistGetD,
        isStrInt, isScalarOrNone]

theorem c8_asXML_witness :
    asXMLcontent 3 (.vtuple (pyListOf [.vstr "KEY", .vstr "a&b"])) =
      .ok "<key>a&amp;b</key>" :=
  Eq.trans (c8_asXML_roundtrip.2 2 (.vstr "KEY") (.vstr "a&b") rfl rfl) rfl

/-- The two-element list whose first element is itself a list, from the C9
claim, on which asXML happily returns a document. -/
def c9FlattenInput : PyVal :=
  .vlist (pyListOf [.vlist (pyListOf [.vtuple (pyListOf [.vstr "a", .vint 1])]),
                    .vtuple (pyListOf [.vstr "b", .vint 2])])

def c9FlattenResult : String :=
  "<?xml version=\"1.0\" ?>\n<root>\n    <a>1</a>\n    <b>2</b>\n</root>"

/-- C9 counterexample: the claim says asXML reports and raises on every
two-element list whose first element is itself a list; on this very input it
instead flattens the nesting and returns a pretty-printed document without
reporting anything. -/
theorem c9_counterexample :
    asXML (.vstr "root") c9FlattenInput = .ok c9FlattenResult := by rfl

/-- C9 as amended: a two-element pair whose first element is neither a string
nor an integer takes the reported error path (log, internal-error exit status,
raise InternalError), for every second element; but a two-element list whose
first element is itself a list is not rejected as such - it is flattened
recursively and may return a document, or raise an unreported TypeError when a
bare integer is reached, as for the list holding the list of 1 and then 2. -/
theorem c9_amended :
    (∀ (n : Nat) (x y : PyVal), isStrInt x = false →
      asXMLcontent (n + 1) (.vtuple (pyListOf [x, y])) = .error .internalError)
    ∧ asXML (.vstr "root")
        (.vlist (pyListOf [.vlist (pyListOf [.vint 1]), .vint 2])) =
        .error .typeError := by
  constructor
  · intro n x y hx
    cases x <;>
      simp_all [asXMLcontent, pyListOf, pyLen, plistLen, pyIndex, plistGetD, isStrInt]
  · rfl

theorem c9_amended_witness :
    asXMLcontent 1 (.vtuple (pyListOf [.vnone, .vint 5])) = .error .internalError :=
  c9_amended.1 0 .vnone (.vint 5) rfl
